/-
  Verification of the libgambatte public contract (gambatte.h) against its
  natural-language specification.

  The repository ships only the public header, so the engine behaviour is
  modelled here from the specification text and the header's documentation
  comments, as a shallow embedding: the Time Coordinator loop (runFor), the
  CPU register file, the RTC latch machinery, save-data export/import, the
  interrupt-address breakpoints, memory-area introspection, the scanline
  hook, and the stereo-sample packing of the audio buffer.
-/
import Mathlib

namespace Gambatte

/-- Modelled from the spec: one executed CPU instruction as the Time
Coordinator sees it (the instruction-execution loop is not in the shipped
sources).  `emitted` is the number of stereo audio samples generated while
this instruction ran; `frameAt` is `some off` when a video frame completed
`off` samples into this instruction's emission. -/
structure Instr where
  emitted : Nat
  frameAt : Option Nat

/-- Well-formedness of an instruction record: a frame-completion offset
falls inside this instruction's own sample emission. -/
def Instr.frameOk (i : Instr) : Bool :=
  match i.frameAt with
  | none => true
  | some off => off < i.emitted

/-- Result of one `runFor` call: the number of stereo samples actually
produced (written back through the in/out parameter) and, when a video
frame completed, the sample offset at which it did. -/
structure RunResult where
  produced : Nat
  frameOffset : Option Nat

/-- Modelled from the spec: the encoding of `runFor`'s return value
(`std::ptrdiff_t`): the frame-completion sample offset, or the sentinel -1
when no video frame was completed during the call. -/
def RunResult.ret (r : RunResult) : Int :=
  match r.frameOffset with
  | none => -1
  | some off => (off : Int)

/-- Modelled from the spec: the Time Coordinator loop of `runFor` (its
implementation is not in the shipped sources).  The stopping conditions are
evaluated at instruction boundaries only: the loop stops once the produced
sample count reaches the requested count, or at the boundary of the first
instruction during which a video frame completed (the header documents that
`runFor` returns early in that case). -/
def runForAux : List Instr → Nat → Nat → RunResult
  | [], _, produced => ⟨produced, none⟩
  | i :: rest, requested, produced =>
    if requested ≤ produced then ⟨produced, none⟩
    else
      match i.frameAt with
      | some off => ⟨produced + i.emitted, some (produced + off)⟩
      | none => runForAux rest requested (produced + i.emitted)

/-- Modelled from the spec: a `runFor` call over the instruction trace the
emulated program generates, with a requested stereo-sample count. -/
def runFor (trace : List Instr) (requested : Nat) : RunResult :=
  runForAux trace requested 0

/-- Total number of stereo samples the whole instruction trace emits. -/
def totalEmitted (trace : List Instr) : Nat :=
  (trace.map Instr.emitted).sum

/-- Modelled from the spec: the CPU register file of the Machine State
(PC, SP and the 8-bit registers A, B, C, D, E, F, H, L); the CPU engine
itself is not in the shipped sources. -/
structure Regs where
  pc : Int
  sp : Int
  a : Int
  b : Int
  c : Int
  d : Int
  e : Int
  f : Int
  h : Int
  l : Int
deriving DecidableEq

/-- Modelled from the spec: the defined power-on register configuration
(concrete values abstracted to zero). -/
def initRegs : Regs :=
  ⟨0, 0, 0, 0, 0, 0, 0, 0, 0, 0⟩

/-- Modelled from the spec: `GB::getRegs` marshals the register file into a
fixed 10-slot array in the documented order
[pc, sp, a, b, c, d, e, f, h, l]. -/
def getRegs (r : Regs) : Fin 10 → Int
  | ⟨0, _⟩ => r.pc
  | ⟨1, _⟩ => r.sp
  | ⟨2, _⟩ => r.a
  | ⟨3, _⟩ => r.b
  | ⟨4, _⟩ => r.c
  | ⟨5, _⟩ => r.d
  | ⟨6, _⟩ => r.e
  | ⟨7, _⟩ => r.f
  | ⟨8, _⟩ => r.h
  | ⟨9, _⟩ => r.l

/-- Modelled from the spec: `GB::setRegs` stores the 10 provided slots into
the register file in the documented order
[pc, sp, a, b, c, d, e, f, h, l]. -/
def setRegs (_ : Regs) (src : Fin 10 → Int) : Regs :=
  { pc := src 0, sp := src 1, a := src 2, b := src 3, c := src 4,
    d := src 5, e := src 6, f := src 7, h := src 8, l := src 9 }

/-- Modelled from the spec: the memory regions exposed by
`GB::getMemoryArea` together with the cartridge-loaded flag; the bus
implementation is not in the shipped sources. -/
structure MemAreas where
  loaded : Bool
  vram : List Nat
  rom : List Nat
  wram : List Nat
  cartram : List Nat
  oam : List Nat
  hram : List Nat

/-- Modelled from the spec: `GB::getMemoryArea` yields the pointer/length
pair for a region index in the documented fixed order 0 = VRAM, 1 = ROM,
2 = WRAM, 3 = cartridge RAM, 4 = OAM, 5 = HRAM; it fails (returns false,
modelled as `none`) when no cartridge is loaded or the index is out of
range. -/
def getMemoryArea (mem : MemAreas) (which : Int) : Option (List Nat × Nat) :=
  if mem.loaded = false then none
  else if which = 0 then some (mem.vram, mem.vram.length)
  else if which = 1 then some (mem.rom, mem.rom.length)
  else if which = 2 then some (mem.wram, mem.wram.length)
  else if which = 3 then some (mem.cartram, mem.cartram.length)
  else if which = 4 then some (mem.oam, mem.oam.length)
  else if which = 5 then some (mem.hram, mem.hram.length)
  else none

/-- Modelled from the spec: the RTC register file of the Machine State —
live counters (day-high `dh`, day-low `dl`, hours `h`, minutes `m`,
seconds `s`), the carry flag `c`, the latched snapshot (`dhl`, `dll`,
`hl`, `ml`, `sl`) and the last value written to the latch address
(`latchPrev`, used to recognise the two-step 0-then-1 latch sequence);
the bank-controller implementation is not in the shipped sources. -/
structure RtcState where
  dh : Nat
  dl : Nat
  h : Nat
  m : Nat
  s : Nat
  c : Nat
  dhl : Nat
  dll : Nat
  hl : Nat
  ml : Nat
  sl : Nat
  latchPrev : Nat
deriving DecidableEq

/-- The RTC register file with every field zero. -/
def rtcZero : RtcState :=
  ⟨0, 0, 0, 0, 0, 0, 0, 0, 0, 0, 0, 0⟩

/-- A sample RTC register file with distinct live and latched values. -/
def rtcSample : RtcState :=
  ⟨1, 2, 3, 4, 5, 6, 7, 8, 9, 10, 11, 0⟩

/-- The latched snapshot fields of the RTC, as a tuple
(day-high, day-low, hours, minutes, seconds). -/
def latchedOf (st : RtcState) : Nat × Nat × Nat × Nat × Nat :=
  (st.dhl, st.dll, st.hl, st.ml, st.sl)

/-- The live counter fields of the RTC, as a tuple
(day-high, day-low, hours, minutes, seconds). -/
def liveSnapshot (st : RtcState) : Nat × Nat × Nat × Nat × Nat :=
  (st.dh, st.dl, st.h, st.m, st.s)

/-- Replace the live counters and carry of an RTC register file, leaving
the latched snapshot untouched. -/
def setLiveCounters (st : RtcState) (dh' dl' h' m' s' c' : Nat) : RtcState :=
  { st with dh := dh', dl := dl', h := h', m := m', s := s', c := c' }

/-- Modelled from the spec: `GB::getRtcRegs` marshals the RTC register
file into the fixed 11-slot array
[dh, dl, h, m, s, c, dhl, dll, hl, ml, sl]. -/
def getRtcRegs (st : RtcState) : List Nat :=
  [st.dh, st.dl, st.h, st.m, st.s, st.c, st.dhl, st.dll, st.hl, st.ml, st.sl]

/-- Modelled from the spec: `GB::setRtcRegs` stores the provided 11-slot
array [dh, dl, h, m, s, c, dhl, dll, hl, ml, sl] into the RTC register
file — including the latched snapshot slots. -/
def setRtcRegs (st : RtcState) (src : List Nat) : RtcState :=
  { st with
    dh := src.getD 0 st.dh, dl := src.getD 1 st.dl, h := src.getD 2 st.h,
    m := src.getD 3 st.m, s := src.getD 4 st.s, c := src.getD 5 st.c,
    dhl := src.getD 6 st.dhl, dll := src.getD 7 st.dll,
    hl := src.getD 8 st.hl, ml := src.getD 9 st.ml, sl := src.getD 10 st.sl }

/-- Modelled from the spec: a CPU read of an RTC register address returns
the corresponding latched snapshot field (register order: seconds,
minutes, hours, day-low, day-high). -/
def rtcRead (st : RtcState) : Fin 5 → Nat
  | ⟨0, _⟩ => st.sl
  | ⟨1, _⟩ => st.ml
  | ⟨2, _⟩ => st.hl
  | ⟨3, _⟩ => st.dll
  | ⟨4, _⟩ => st.dhl

/-- Modelled from the spec: one tick of the time base advances the live
counters with the usual cascade (seconds to minutes to hours to the
9-bit day counter, setting the carry on day overflow); the latched
snapshot is never touched by time advance. -/
def rtcTick (st : RtcState) : RtcState :=
  if st.s + 1 < 60 then { st with s := st.s + 1 }
  else if st.m + 1 < 60 then { st with s := 0, m := st.m + 1 }
  else if st.h + 1 < 24 then { st with s := 0, m := 0, h := st.h + 1 }
  else if st.dl + 1 < 256 then { st with s := 0, m := 0, h := 0, dl := st.dl + 1 }
  else if st.dh = 0 then { st with s := 0, m := 0, h := 0, dl := 0, dh := 1 }
  else { st with s := 0, m := 0, h := 0, dl := 0, dh := 0, c := 1 }

/-- Modelled from the spec: the operations that can touch the RTC state —
a CPU write to the latch address window, a CPU write to an RTC data
register (live counters), a time-base tick, a CPU read of an RTC register,
and the host-level `GB::setRtcRegs`. -/
inductive RtcOp where
  | latchWrite (v : Nat)
  | regWrite (idx : Fin 5) (v : Nat)
  | tick
  | busRead (idx : Fin 5)
  | hostSetRegs (src : List Nat)

/-- Whether an RTC operation is an emulated CPU-bus operation or time
advance (as opposed to a host-level register overwrite). -/
def RtcOp.isCpuBus : RtcOp → Bool
  | .hostSetRegs _ => false
  | _ => true

/-- Whether an operation completes the two-step latch sequence: a write of
1 to the latch address immediately after a write of 0. -/
def latchTrigger (st : RtcState) : RtcOp → Bool
  | .latchWrite v => st.latchPrev == 0 && v == 1
  | _ => false

/-- Modelled from the spec: the effect of each RTC operation on the RTC
register file.  A completed 0-then-1 latch sequence copies the live
counters into the latched snapshot; reads have no effect; writes to the
data registers and ticks touch only the live counters. -/
def applyRtcOp (st : RtcState) : RtcOp → RtcState
  | .latchWrite v =>
    if st.latchPrev = 0 ∧ v = 1 then
      { st with dhl := st.dh, dll := st.dl, hl := st.h, ml := st.m,
                sl := st.s, latchPrev := v }
    else { st with latchPrev := v }
  | .regWrite idx v =>
    (match idx with
     | ⟨0, _⟩ => { st with s := v }
     | ⟨1, _⟩ => { st with m := v }
     | ⟨2, _⟩ => { st with h := v }
     | ⟨3, _⟩ => { st with dl := v }
     | ⟨4, _⟩ => { st with dh := v })
  | .tick => rtcTick st
  | .busRead _ => st
  | .hostSetRegs src => setRtcRegs st src

/-- Modelled from the spec: the Cartridge Image metadata relevant to
persistence — ROM bytes, the cartridge-RAM length derived from the header,
and whether the cartridge carries an RTC. -/
structure Cart where
  rom : List Nat
  ramLen : Nat
  hasRtc : Bool

/-- Modelled from the spec: the Machine State — CPU register file, RTC
register file, cartridge RAM, cycle counter, and one field (`aux`)
abstracting the remaining subsystem state (PPU, APU, link), whose
implementations are not in the shipped sources. -/
structure MachineState where
  regs : Regs
  rtc : RtcState
  cartRam : List Nat
  cycles : Nat
  aux : Nat

/-- Modelled from the spec: the defined power-on configuration of a
freshly loaded instance; cartridge RAM starts cleared at its
metadata-determined length. -/
def powerOn (cart : Cart) : MachineState :=
  { regs := initRegs, rtc := rtcZero,
    cartRam := List.replicate cart.ramLen 0, cycles := 0, aux := 0 }

/-- Modelled from the spec: `GB::reset` returns the Machine State
wholesale to the defined power-on configuration; cartridge RAM is a
separate persistence entity (battery-backed) and survives the reset. -/
def reset (cart : Cart) (st : MachineState) : MachineState :=
  { powerOn cart with cartRam := st.cartRam }

/-- Modelled from the spec: `GB::saveSavedata` serializes the cartridge
RAM, followed by the 11 RTC register fields only when the deterministic
flag is off — deterministic mode always omits RTC contents. -/
def saveSavedata (st : MachineState) (isDeterministic : Bool) : List Nat :=
  if isDeterministic then st.cartRam else st.cartRam ++ getRtcRegs st.rtc

/-- Modelled from the spec: `GB::saveSavedataLength` reports the exact
length `saveSavedata` will produce for the given determinism flag. -/
def saveSavedataLength (st : MachineState) (isDeterministic : Bool) : Nat :=
  st.cartRam.length + (if isDeterministic then 0 else 11)

/-- Modelled from the spec: `GB::loadSavedata` restores the cartridge RAM
from the buffer and, only when the deterministic flag is off, the 11 RTC
register fields that follow it; in deterministic mode the RTC state is not
touched. -/
def loadSavedata (st : MachineState) (data : List Nat)
    (isDeterministic : Bool) : MachineState :=
  let st1 := { st with cartRam := data.take st.cartRam.length }
  if isDeterministic then st1
  else { st1 with rtc := setRtcRegs st1.rtc (data.drop st.cartRam.length) }

/-- Modelled from the spec: the outputs of a sequence of `runFor` calls as
a function of the engine's step behaviour, the starting Machine State and
the per-call host inputs.  The engine is deterministic: each call is a
pure function of the current state and its input, returning the next
state and that call's combined audio/video output. -/
def runTrace (step : MachineState → Nat → MachineState × Nat) :
    MachineState → List Nat → List Nat
  | _, [] => []
  | st, inp :: rest => (step st inp).2 :: runTrace step (step st inp).1 rest

/-- A concrete deterministic engine step whose output reveals the current
program counter; the state is left unchanged. -/
def cexStep : MachineState → Nat → MachineState × Nat :=
  fun st _ => (st, st.regs.pc.toNat)

/-- A concrete RAM-less cartridge. -/
def cexCart : Cart := ⟨[], 0, false⟩

/-- A concrete mid-execution Machine State: power-on except that the
program counter has advanced to 1. -/
def cexStA : MachineState :=
  { powerOn cexCart with regs := { initRegs with pc := 1 } }

/-- A concrete cartridge with two bytes of cartridge RAM. -/
def cartW : Cart := ⟨[1], 2, true⟩

/-- A concrete mid-execution Machine State over `cartW`, with nontrivial
register, RTC, cartridge-RAM and cycle contents. -/
def mstW : MachineState :=
  { regs := { initRegs with pc := 7 }, rtc := rtcSample,
    cartRam := [5, 6], cycles := 3, aux := 9 }

/-- A concrete Machine State with two bytes of cartridge RAM and a
nontrivial RTC register file. -/
def mstSample : MachineState :=
  { regs := initRegs, rtc := rtcSample, cartRam := [3, 4],
    cycles := 0, aux := 0 }

/-- Modelled from the spec: decode one packed breakpoint entry, written
0xBBAAAA in the header documentation, into its (bank, address) pair. -/
def decodeBreakpoint (packed : Nat) : Nat × Nat :=
  (packed / 65536, packed % 65536)

/-- Modelled from the spec: `GB::setInterruptAddresses` installs the
Interrupt Breakpoint Set wholesale from the packed entries. -/
def setInterruptAddresses (packedAddrs : List Nat) : List (Nat × Nat) :=
  packedAddrs.map decodeBreakpoint

/-- Modelled from the spec: the (bank, address) opcode-fetch sequence of
the emulated program; the CPU engine is not in the shipped sources, so a
program is abstracted to its fetch-successor function, `fetchIter` giving
the fetch reached after `k` executed instructions. -/
def fetchIter (prog : Nat × Nat → Nat × Nat) (start : Nat × Nat) :
    Nat → Nat × Nat
  | 0 => start
  | k + 1 => prog (fetchIter prog start k)

/-- Modelled from the spec: a `runFor` call executing up to `fuel`
instructions.  Before each opcode fetch the (bank, address) pair is
checked against the Interrupt Breakpoint Set; on a match, execution halts
immediately and the hit address is recorded, which
`GB::getHitInterruptAddress` then reports; if nothing is hit the sentinel
-1 is reported. -/
def runWithBreakpoints (bps : List (Nat × Nat))
    (prog : Nat × Nat → Nat × Nat) : Nat → Nat × Nat → Int
  | 0, _ => -1
  | fuel + 1, pos =>
    if pos ∈ bps then (pos.2 : Int)
    else runWithBreakpoints bps prog fuel (prog pos)

/-- A concrete program that jumps from its entry point straight to
address 0x0150 in bank 0. -/
def progHit : Nat × Nat → Nat × Nat :=
  fun p => (0, p.2 + 0x50)

/-- A concrete program that leaves bank 0 after its first instruction and
never fetches from (bank 0, address 0x0150). -/
def progMiss : Nat × Nat → Nat × Nat :=
  fun p => (1, p.2 + 1)

/-- Modelled from the spec: the 16-bit two's-complement encoding of one
PCM channel sample (the header documents native-endian two's-complement
16-bit PCM samples). -/
def encode16 (x : Int) : Nat :=
  (x % 65536).toNat

/-- Decode one 16-bit lane back to its two's-complement value. -/
def decode16 (n : Nat) : Int :=
  if n < 32768 then (n : Int) else (n : Int) - 65536

/-- Modelled from the spec: one stereo sample as `runFor` stores it into
the audio buffer — one 32-bit unit made of two 16-bit lanes in memory
order, with the left-channel sample in the first lane and the
right-channel sample in the second. -/
def packStereoSample (left right : Int) : List Nat :=
  [encode16 left, encode16 right]

/-- Modelled from the spec: the audio buffer contents `runFor` emits for a
sequence of stereo PCM pairs — the packed stereo samples laid out
consecutively. -/
def audioBuffer (pcm : List (Int × Int)) : List Nat :=
  (pcm.map fun p => packStereoSample p.1 p.2).flatten

/-- A rendered video frame spans scanlines LY = 0 .. 153. -/
def scanlinesPerFrame : Nat := 154

/-- Modelled from the spec: whether the registered scanline callback fires
at scanline `ly`; `GB::setScanlineCallback(callback, sl)` registers the
callback for the single scanline `sl`, and the PPU implementation is not
in the shipped sources. -/
def frameHookFires (registeredLine : Nat) (ly : Nat) : Bool :=
  ly == registeredLine

/-- Modelled from the spec: the sequence of LY values at which the
registered scanline hook fires during one rendered frame.  While the
display is enabled the PPU walks scanlines LY = 0 .. 153 in order, firing
the hook at the start of each matching line; while the display is disabled
no scanline work happens at all. -/
def frameHookTrace (displayEnabled : Bool) (registeredLine : Nat) : List Nat :=
  if displayEnabled then
    (List.range scanlinesPerFrame).filter (frameHookFires registeredLine)
  else []

end Gambatte

namespace Gambatte

theorem totalEmitted_cons (i : Instr) (rest : List Instr) :
    totalEmitted (i :: rest) = i.emitted + totalEmitted rest := by
  simp [totalEmitted]

theorem runForAux_produced_le (trace : List Instr) (requested : Nat)
    (hb : ∀ i ∈ trace, i.emitted ≤ 2064) :
    ∀ produced, produced ≤ requested + 2064 →
      (runForAux trace requested produced).produced ≤ requested + 2064 := by
  induction trace with
  | nil => intro p hp; simpa [runForAux] using hp
  | cons i rest ih =>
    intro p hp
    have hi : i.emitted ≤ 2064 := hb i (List.mem_cons_self i rest)
    have hrest : ∀ j ∈ rest, j.emitted ≤ 2064 :=
      fun j hj => hb j (List.mem_cons_of_mem i hj)
    by_cases hreq : requested ≤ p
    · simpa [runForAux, hreq] using hp
    · cases hfr : i.frameAt with
      | some off =>
        simp only [runForAux, if_neg hreq, hfr]
        omega
      | none =>
        simp only [runForAux, if_neg hreq, hfr]
        exact ih hrest (p + i.emitted) (by omega)

theorem runForAux_produced_ge (trace : List Instr) (requested : Nat) :
    ∀ produced,
      (runForAux trace requested produced).frameOffset = none →
      requested ≤ produced + totalEmitted trace →
      requested ≤ (runForAux trace requested produced).produced := by
  induction trace with
  | nil => intro p _ hsuf; simpa [runForAux, totalEmitted] using hsuf
  | cons i rest ih =>
    intro p hfo hsuf
    by_cases hreq : requested ≤ p
    · simp [runForAux, hreq]
    · cases hfr : i.frameAt with
      | some off => simp [runForAux, if_neg hreq, hfr] at hfo
      | none =>
        simp only [runForAux, if_neg hreq, hfr] at hfo ⊢
        refine ih (p + i.emitted) hfo ?_
        rw [totalEmitted_cons] at hsuf
        omega

theorem runForAux_frame_lt (trace : List Instr) (requested : Nat)
    (hwf : ∀ i ∈ trace, i.frameOk = true) :
    ∀ produced off,
      (runForAux trace requested produced).frameOffset = some off →
      off < (runForAux trace requested produced).produced := by
  induction trace with
  | nil => intro p off h; simp [runForAux] at h
  | cons i rest ih =>
    intro p off h
    have hi : i.frameOk = true := hwf i (List.mem_cons_self i rest)
    have hrest : ∀ j ∈ rest, j.frameOk = true :=
      fun j hj => hwf j (List.mem_cons_of_mem i hj)
    by_cases hreq : requested ≤ p
    · simp [runForAux, hreq] at h
    · cases hfr : i.frameAt with
      | some o =>
        simp only [runForAux, if_neg hreq, hfr, Option.some.injEq] at h ⊢
        have ho : o < i.emitted := by
          simpa [Instr.frameOk, hfr] using hi
        omega
      | none =>
        simp only [runForAux, if_neg hreq, hfr] at h ⊢
        exact ih hrest (p + i.emitted) off h

theorem runForAux_frame_mem (trace : List Instr) (requested : Nat) :
    ∀ produced off,
      (runForAux trace requested produced).frameOffset = some off →
      ∃ i ∈ trace, i.frameAt ≠ none := by
  induction trace with
  | nil => intro p off h; simp [runForAux] at h
  | cons i rest ih =>
    intro p off h
    by_cases hreq : requested ≤ p
    · simp [runForAux, hreq] at h
    · cases hfr : i.frameAt with
      | some o =>
        exact ⟨i, List.mem_cons_self i rest, by simp [hfr]⟩
      | none =>
        simp only [runForAux, if_neg hreq, hfr] at h
        obtain ⟨j, hj, hjf⟩ := ih (p + i.emitted) off h
        exact ⟨j, List.mem_cons_of_mem i hj, hjf⟩

/-- C1 (amended): for every `runFor` call whose instructions each emit at
most 2,064 samples, the produced sample count exceeds the requested count
by at most 2,064; and the produced count is at least the requested count
whenever no video frame completed during the call (and the trace supplies
enough samples).  When a frame completes first, `runFor` returns early, so
the produced count may be below the requested count. -/
theorem runFor_produced_bounds (trace : List Instr) (requested : Nat)
    (hb : ∀ i ∈ trace, i.emitted ≤ 2064) :
    (runFor trace requested).produced ≤ requested + 2064
    ∧ ((runFor trace requested).frameOffset = none →
        requested ≤ totalEmitted trace →
        requested ≤ (runFor trace requested).produced) := by
  constructor
  · exact runForAux_produced_le trace requested hb 0 (by omega)
  · intro hfo hsuf
    exact runForAux_produced_ge trace requested 0 hfo (by omega)

/-- C1 witness: a concrete call where the bounds are realised. -/
theorem runFor_produced_bounds_witness :
    (runFor [⟨2000, none⟩, ⟨2000, none⟩] 3000).produced ≤ 3000 + 2064
    ∧ 3000 ≤ (runFor [⟨2000, none⟩, ⟨2000, none⟩] 3000).produced :=
  ⟨(runFor_produced_bounds [⟨2000, none⟩, ⟨2000, none⟩] 3000 (by decide)).1,
   (runFor_produced_bounds [⟨2000, none⟩, ⟨2000, none⟩] 3000 (by decide)).2
     (by decide) (by decide)⟩

/-- C1 counterexample: on a well-formed instruction trace whose first
instruction completes a video frame after 5 samples, a request for 100
samples produces only 5, so produced ≥ requested fails. -/
theorem runFor_undershoot_cex :
    (∀ i ∈ [(⟨5, some 2⟩ : Instr)], i.frameOk = true ∧ i.emitted ≤ 2064)
    ∧ (runFor [⟨5, some 2⟩] 100).produced < 100 := by
  decide

/-- C2: the return value of `runFor` is -1 exactly when no video frame
completed during the call; otherwise it equals the frame-completion sample
offset, which lies in the half-open range [0, produced), and a frame
instruction genuinely occurs in the executed trace. -/
theorem runFor_return_contract (trace : List Instr) (requested : Nat)
    (hwf : ∀ i ∈ trace, i.frameOk = true) :
    ((runFor trace requested).ret = -1 ↔
      (runFor trace requested).frameOffset = none)
    ∧ (∀ off, (runFor trace requested).frameOffset = some off →
        (runFor trace requested).ret = (off : Int)
        ∧ off < (runFor trace requested).produced)
    ∧ ((runFor trace requested).frameOffset ≠ none →
        ∃ i ∈ trace, i.frameAt ≠ none) := by
  refine ⟨?_, ?_, ?_⟩
  · cases hfo : (runFor trace requested).frameOffset with
    | none => simp [RunResult.ret, hfo]
    | some off =>
      simp only [RunResult.ret, hfo]
      constructor
      · intro h; exact absurd h (by omega)
      · intro h; exact absurd h (by simp)
  · intro off hfo
    refine ⟨by simp [RunResult.ret, hfo], ?_⟩
    exact runForAux_frame_lt trace requested hwf 0 off hfo
  · intro hfo
    cases hfo2 : (runFor trace requested).frameOffset with
    | none => exact absurd hfo2 hfo
    | some off => exact runForAux_frame_mem trace requested 0 off hfo2

/-- C2 witness: a concrete frame-completing call and a concrete
frame-free call, both satisfying the return contract. -/
theorem runFor_return_contract_witness :
    ((runFor [⟨10, none⟩, ⟨8, some 3⟩] 100).ret = -1 ↔
      (runFor [⟨10, none⟩, ⟨8, some 3⟩] 100).frameOffset = none)
    ∧ (∀ off, (runFor [⟨10, none⟩, ⟨8, some 3⟩] 100).frameOffset = some off →
        (runFor [⟨10, none⟩, ⟨8, some 3⟩] 100).ret = (off : Int)
        ∧ off < (runFor [⟨10, none⟩, ⟨8, some 3⟩] 100).produced) :=
  ⟨(runFor_return_contract [⟨10, none⟩, ⟨8, some 3⟩] 100 (by decide)).1,
   (runFor_return_contract [⟨10, none⟩, ⟨8, some 3⟩] 100 (by decide)).2.1⟩

/-- C3: for every 10-element register array `x`, calling `setRegs` with `x`
and then `getRegs` yields `x` back in every one of the 10 slots
(PC, SP, A, B, C, D, E, F, H, L). -/
theorem setRegs_getRegs_roundtrip (r : Regs) (x : Fin 10 → Int) :
    getRegs (setRegs r x) = x := by
  funext i
  fin_cases i <;> rfl

/-- C7: `getMemoryArea` fails exactly when no cartridge is loaded or the
region index is out of range; on success it yields the data and length of
the selected region in the fixed index order VRAM, ROM, WRAM, cartridge
RAM, OAM, HRAM. -/
theorem getMemoryArea_spec (mem : MemAreas) (which : Int) :
    (getMemoryArea mem which = none ↔
      (mem.loaded = false ∨ which < 0 ∨ 5 < which))
    ∧ (mem.loaded = true →
        getMemoryArea mem 0 = some (mem.vram, mem.vram.length)
        ∧ getMemoryArea mem 1 = some (mem.rom, mem.rom.length)
        ∧ getMemoryArea mem 2 = some (mem.wram, mem.wram.length)
        ∧ getMemoryArea mem 3 = some (mem.cartram, mem.cartram.length)
        ∧ getMemoryArea mem 4 = some (mem.oam, mem.oam.length)
        ∧ getMemoryArea mem 5 = some (mem.hram, mem.hram.length)) := by
  constructor
  · unfold getMemoryArea
    split_ifs with h0 h1 h2 h3 h4 h5 h6 <;> (simp_all; try omega)
  · intro hl
    refine ⟨?_, ?_, ?_, ?_, ?_, ?_⟩ <;> simp [getMemoryArea, hl]

/-- C7 witness: a loaded instance succeeds with the documented region for
index 1 (ROM); index 6 and an unloaded instance fail. -/
theorem getMemoryArea_spec_witness :
    getMemoryArea ⟨true, [1], [2, 3], [4], [5], [6], [7]⟩ 1 = some ([2, 3], 2)
    ∧ getMemoryArea ⟨true, [1], [2, 3], [4], [5], [6], [7]⟩ 6 = none
    ∧ getMemoryArea ⟨false, [1], [2, 3], [4], [5], [6], [7]⟩ 0 = none :=
  ⟨((getMemoryArea_spec ⟨true, [1], [2, 3], [4], [5], [6], [7]⟩ 1).2 rfl).2.1,
   (getMemoryArea_spec ⟨true, [1], [2, 3], [4], [5], [6], [7]⟩ 6).1.mpr
     (Or.inr (Or.inr (by decide))),
   (getMemoryArea_spec ⟨false, [1], [2, 3], [4], [5], [6], [7]⟩ 0).1.mpr
     (Or.inl rfl)⟩

theorem range_filter_beq (n a : Nat) (ha : a < n) :
    (List.range n).filter (fun x => x == a) = [a] := by
  induction n with
  | zero => omega
  | succ n ih =>
    rw [List.range_succ, List.filter_append]
    by_cases h : a < n
    · rw [ih h]
      have hne : ((n : Nat) == a) = false := by
        simp only [beq_eq_false_iff_ne, ne_eq]
        omega
      simp [hne]
    · have ha' : a = n := by omega
      subst ha'
      have hnil : (List.range a).filter (fun x => x == a) = [] := by
        apply List.filter_eq_nil_iff.mpr
        intro b hb
        simp only [List.mem_range] at hb
        simp only [beq_eq_false_iff_ne, ne_eq, Bool.not_eq_true]
        omega
      simp [hnil]

/-- C9 (amended): while the display is enabled, the registered scanline
hook fires exactly once per rendered frame, at the single registered LY
value (the callback is registered for one particular scanline); while the
display is disabled it never fires. -/
theorem scanline_hook_per_frame (registeredLine : Nat)
    (hsl : registeredLine ≤ 153) :
    frameHookTrace true registeredLine = [registeredLine]
    ∧ frameHookTrace false registeredLine = [] := by
  constructor
  · simp only [frameHookTrace, scanlinesPerFrame, if_pos]
    exact range_filter_beq 154 registeredLine (by omega)
  · rfl

/-- C9 witness: a hook registered for scanline 40. -/
theorem scanline_hook_per_frame_witness :
    40 ≤ 153
    ∧ (frameHookTrace true 40 = [40] ∧ frameHookTrace false 40 = []) :=
  ⟨by decide, scanline_hook_per_frame 40 (by decide)⟩

/-- C9 counterexample: with a hook registered for scanline 5 and the
display enabled, the hook fires only at LY = 5 during a frame, not with
the full strictly increasing sequence of LY values 0 .. 153. -/
theorem scanline_hook_full_sequence_cex :
    frameHookTrace true 5 = [5]
    ∧ frameHookTrace true 5 ≠ List.range scanlinesPerFrame := by
  decide

/-- C8 (amended): in every RTC state, a CPU read of an RTC register
address depends only on the latched snapshot, never on the live counters;
and under every emulated CPU-bus operation or time-base tick, the latched
snapshot changes exactly when the two-step latch sequence (a write of 0
followed by a write of 1 to the latch address) completes, in which case it
becomes a copy of the live counters.  Host-level `setRtcRegs` (excluded
here) overwrites the latched slots directly. -/
theorem rtc_latch_invariant (st : RtcState) (op : RtcOp)
    (hop : op.isCpuBus = true) :
    (∀ dh' dl' h' m' s' c' idx,
        rtcRead (setLiveCounters st dh' dl' h' m' s' c') idx = rtcRead st idx)
    ∧ latchedOf (applyRtcOp st op) =
        (if latchTrigger st op then liveSnapshot st else latchedOf st) := by
  constructor
  · intro dh' dl' h' m' s' c' idx
    fin_cases idx <;> rfl
  · cases op with
    | latchWrite v =>
      by_cases hc : st.latchPrev = 0 ∧ v = 1
      · have hb : latchTrigger st (RtcOp.latchWrite v) = true := by
          simp [latchTrigger, hc.1, hc.2]
        simp [applyRtcOp, if_pos hc, hb, latchedOf, liveSnapshot]
      · have hb : latchTrigger st (RtcOp.latchWrite v) = false := by
          simp only [latchTrigger, Bool.and_eq_false_iff, beq_eq_false_iff_ne,
            ne_eq]
          rcases Decidable.not_and_iff_or_not.mp hc with h | h
          · exact Or.inl h
          · exact Or.inr h
        simp [applyRtcOp, if_neg hc, hb, latchedOf]
    | regWrite idx v =>
      fin_cases idx <;> simp [applyRtcOp, latchTrigger, latchedOf]
    | tick =>
      simp only [applyRtcOp, latchTrigger, if_neg Bool.false_ne_true]
      unfold rtcTick
      split_ifs <;> rfl
    | busRead idx => rfl
    | hostSetRegs src => simp [RtcOp.isCpuBus] at hop

/-- C8 witness: a completed latch sequence on a concrete RTC state copies
the live counters into the latched snapshot. -/
theorem rtc_latch_invariant_witness :
    (RtcOp.latchWrite 1).isCpuBus = true
    ∧ latchedOf (applyRtcOp rtcSample (RtcOp.latchWrite 1)) =
        (if latchTrigger rtcSample (RtcOp.latchWrite 1) then
          liveSnapshot rtcSample
         else latchedOf rtcSample) :=
  ⟨rfl, (rtc_latch_invariant rtcSample (RtcOp.latchWrite 1) rfl).2⟩

/-- C8 counterexample: the host-level `setRtcRegs` operation modifies the
latched snapshot without any latch sequence occurring, so the claim that
no operation other than the two-step latch sequence modifies the latched
values fails on the API as documented. -/
theorem rtc_latched_host_mutation_cex :
    latchTrigger rtcZero (RtcOp.hostSetRegs [0, 0, 0, 0, 0, 0, 7, 0, 0, 0, 0])
      = false
    ∧ latchedOf (applyRtcOp rtcZero
        (RtcOp.hostSetRegs [0, 0, 0, 0, 0, 0, 7, 0, 0, 0, 0]))
      ≠ latchedOf rtcZero := by
  decide

theorem loadSavedata_powerOn_deterministic (cart : Cart) (stA : MachineState)
    (hwf : stA.cartRam.length = cart.ramLen) :
    loadSavedata (powerOn cart) (saveSavedata stA true) true
      = reset cart stA := by
  simp only [loadSavedata, saveSavedata, reset, powerOn, if_true]
  rw [List.length_replicate, ← hwf, List.take_length]

/-- C4 (amended): exporting save data in deterministic mode from one
instance and importing it into a freshly reset instance loaded with the
same cartridge makes the importing instance and the exporting instance,
once the latter is itself reset, produce bit-identical output for every
subsequent identical sequence of runFor calls with identical inputs,
whatever deterministic engine behaviour `step` describes.  Without the
reset the exporter continues from its mid-execution state and the outputs
can differ. -/
theorem savedata_roundtrip_deterministic
    (step : MachineState → Nat → MachineState × Nat)
    (cart : Cart) (stA : MachineState) (inputs : List Nat)
    (hwf : stA.cartRam.length = cart.ramLen) :
    runTrace step (reset cart stA) inputs
      = runTrace step
          (loadSavedata (powerOn cart) (saveSavedata stA true) true)
          inputs := by
  rw [loadSavedata_powerOn_deterministic cart stA hwf]

/-- C4 witness: a concrete cartridge, exporting state, engine step and
input sequence. -/
theorem savedata_roundtrip_deterministic_witness :
    mstW.cartRam.length = cartW.ramLen
    ∧ runTrace cexStep (reset cartW mstW) [0, 1]
        = runTrace cexStep
            (loadSavedata (powerOn cartW) (saveSavedata mstW true) true)
            [0, 1] :=
  ⟨rfl, savedata_roundtrip_deterministic cexStep cartW mstW [0, 1] rfl⟩

/-- C4 counterexample: an exporting instance whose program counter has
advanced past power-on produces different output from the freshly reset
importing instance, so the two-run equality fails as stated (without
resetting the exporter). -/
theorem savedata_roundtrip_cex :
    runTrace cexStep cexStA [0]
      ≠ runTrace cexStep
          (loadSavedata (powerOn cexCart) (saveSavedata cexStA true) true)
          [0] := by
  decide

/-- C5: the buffer written by `saveSavedata(buf, true)` has length
`saveSavedataLength(true)` and contains no RTC register fields (it is
unchanged under arbitrary replacement of the RTC state); and
`loadSavedata` of a buffer of exactly that length with the deterministic
flag leaves every RTC state field equal to its pre-call value. -/
theorem savedata_deterministic_excludes_rtc (st : MachineState)
    (data : List Nat) (_hlen : data.length = saveSavedataLength st true) :
    (saveSavedata st true).length = saveSavedataLength st true
    ∧ (∀ rtc', saveSavedata { st with rtc := rtc' } true = saveSavedata st true)
    ∧ (loadSavedata st data true).rtc = st.rtc := by
  refine ⟨?_, ?_, ?_⟩
  · simp [saveSavedata, saveSavedataLength]
  · intro rtc'
    simp [saveSavedata]
  · simp [loadSavedata]

/-- C5 witness: a concrete state with nontrivial RTC contents and a
buffer of exactly the deterministic save-data length. -/
theorem savedata_deterministic_excludes_rtc_witness :
    ([9, 9] : List Nat).length = saveSavedataLength mstSample true
    ∧ (saveSavedata mstSample true).length = saveSavedataLength mstSample true
    ∧ (loadSavedata mstSample [9, 9] true).rtc = mstSample.rtc :=
  ⟨rfl,
   (savedata_deterministic_excludes_rtc mstSample [9, 9] rfl).1,
   (savedata_deterministic_excludes_rtc mstSample [9, 9] rfl).2.2⟩

theorem fetchIter_succ_shift (prog : Nat × Nat → Nat × Nat)
    (start : Nat × Nat) (k : Nat) :
    fetchIter prog start (k + 1) = fetchIter prog (prog start) k := by
  induction k with
  | zero => rfl
  | succ k ih =>
    show prog (fetchIter prog start (k + 1)) = _
    rw [ih]
    rfl

theorem runWithBreakpoints_miss (bps : List (Nat × Nat))
    (prog : Nat × Nat → Nat × Nat) :
    ∀ fuel start, (∀ k, k < fuel → fetchIter prog start k ∉ bps) →
      runWithBreakpoints bps prog fuel start = -1 := by
  intro fuel
  induction fuel with
  | zero => intro start _; rfl
  | succ fuel ih =>
    intro start hmiss
    have h0 : start ∉ bps := hmiss 0 (Nat.succ_pos fuel)
    simp only [runWithBreakpoints, if_neg h0]
    refine ih (prog start) ?_
    intro k hk
    have := hmiss (k + 1) (by omega)
    rwa [fetchIter_succ_shift] at this

theorem runWithBreakpoints_hit (target : Nat × Nat)
    (prog : Nat × Nat → Nat × Nat) :
    ∀ fuel start, (∃ k, k < fuel ∧ fetchIter prog start k = target) →
      runWithBreakpoints [target] prog fuel start = (target.2 : Int) := by
  intro fuel
  induction fuel with
  | zero => rintro start ⟨k, hk, _⟩; omega
  | succ fuel ih =>
    rintro start ⟨k, hk, hfk⟩
    by_cases hs : start ∈ [target]
    · have : start = target := by simpa using hs
      simp [runWithBreakpoints, hs, this]
    · have hs' : start ≠ target := by simpa using hs
      simp only [runWithBreakpoints, if_neg hs]
      cases k with
      | zero => exact absurd hfk hs'
      | succ k =>
        rw [fetchIter_succ_shift] at hfk
        exact ih (prog start) ⟨k, by omega, hfk⟩

/-- C6: with the Interrupt Breakpoint Set installed from the single packed
entry 0x0150 (bank 0, address 0x0150), a `runFor` call over a program that
fetches an opcode at (bank 0, address 0x0150) halts there and reports hit
address 0x0150; over a program that never reaches that (bank, address) it
reports the sentinel -1. -/
theorem breakpoint_hit_spec (prog : Nat × Nat → Nat × Nat)
    (start : Nat × Nat) (fuel : Nat) :
    ((∃ k, k < fuel ∧ fetchIter prog start k = (0, 0x0150)) →
      runWithBreakpoints (setInterruptAddresses [0x0150]) prog fuel start
        = 0x0150)
    ∧ ((∀ k, k < fuel → fetchIter prog start k ≠ (0, 0x0150)) →
      runWithBreakpoints (setInterruptAddresses [0x0150]) prog fuel start
        = -1) := by
  have hset : setInterruptAddresses [0x0150] = [(0, 0x0150)] := rfl
  rw [hset]
  constructor
  · intro hex
    exact runWithBreakpoints_hit (0, 0x0150) prog fuel start hex
  · intro hmiss
    refine runWithBreakpoints_miss [(0, 0x0150)] prog fuel start ?_
    intro k hk
    simpa using hmiss k hk

/-- C6 witness: a concrete program that jumps to (bank 0, 0x0150) and a
concrete program that never reaches it. -/
theorem breakpoint_hit_spec_witness :
    runWithBreakpoints (setInterruptAddresses [0x0150]) progHit 2 (0, 0x0100)
      = 0x0150
    ∧ runWithBreakpoints (setInterruptAddresses [0x0150]) progMiss 3
        (0, 0x0100) = -1 :=
  ⟨(breakpoint_hit_spec progHit (0, 0x0100) 2).1 ⟨1, by decide⟩,
   (breakpoint_hit_spec progMiss (0, 0x0100) 3).2 (by decide)⟩

theorem decode16_encode16 (x : Int) (h1 : -32768 ≤ x) (h2 : x < 32768) :
    decode16 (encode16 x) = x := by
  unfold decode16 encode16
  split_ifs <;> omega

theorem encode16_lt (x : Int) : encode16 x < 65536 := by
  unfold encode16
  omega

theorem audioBuffer_cons (p : Int × Int) (rest : List (Int × Int)) :
    audioBuffer (p :: rest)
      = encode16 p.1 :: encode16 p.2 :: audioBuffer rest := by
  simp [audioBuffer, packStereoSample]

/-- C10: for every PCM pair sequence emitted into the audio buffer, each
stereo sample occupies one 32-bit unit made of two 16-bit two's-complement
lanes (every lane value fits in 16 bits, two lanes per sample), with the
left-channel sample in the first lane and the right-channel sample in the
second — decoding lane 2k recovers the left channel of sample k and lane
2k+1 its right channel. -/
theorem stereo_sample_packing (pcm : List (Int × Int))
    (hrange : ∀ p ∈ pcm,
      -32768 ≤ p.1 ∧ p.1 < 32768 ∧ -32768 ≤ p.2 ∧ p.2 < 32768) :
    (audioBuffer pcm).length = 2 * pcm.length
    ∧ (∀ v ∈ audioBuffer pcm, v < 65536)
    ∧ (∀ k, k < pcm.length →
        decode16 ((audioBuffer pcm).getD (2 * k) 0) = (pcm.getD k (0, 0)).1
        ∧ decode16 ((audioBuffer pcm).getD (2 * k + 1) 0)
            = (pcm.getD k (0, 0)).2) := by
  induction pcm with
  | nil =>
    refine ⟨rfl, ?_, ?_⟩
    · intro v hv; simp [audioBuffer] at hv
    · intro k hk; exact absurd hk (by simp)
  | cons p rest ih =>
    have hp := hrange p (List.mem_cons_self p rest)
    have hrest : ∀ q ∈ rest,
        -32768 ≤ q.1 ∧ q.1 < 32768 ∧ -32768 ≤ q.2 ∧ q.2 < 32768 :=
      fun q hq => hrange q (List.mem_cons_of_mem p hq)
    obtain ⟨ihlen, ihmem, ihdec⟩ := ih hrest
    rw [audioBuffer_cons]
    refine ⟨?_, ?_, ?_⟩
    · simp only [List.length_cons, ihlen]
      omega
    · intro v hv
      simp only [List.mem_cons] at hv
      rcases hv with rfl | rfl | hv
      · exact encode16_lt p.1
      · exact encode16_lt p.2
      · exact ihmem v hv
    · intro k hk
      cases k with
      | zero =>
        refine ⟨?_, ?_⟩
        · simpa using decode16_encode16 p.1 hp.1 hp.2.1
        · simpa using decode16_encode16 p.2 hp.2.2.1 hp.2.2.2
      | succ k =>
        have e1 : 2 * (k + 1) = 2 * k + 1 + 1 := by omega
        rw [e1]
        simp only [List.getD_cons_succ]
        have hk' : k < rest.length := by
          simp only [List.length_cons] at hk
          omega
        exact ihdec k hk'

/-- C10 witness: a concrete negative left sample and positive right sample
round-trip through the packed buffer in left-then-right lane order. -/
theorem stereo_sample_packing_witness :
    decode16 ((audioBuffer [((-12345 : Int), (678 : Int))]).getD 0 0)
      = -12345
    ∧ decode16 ((audioBuffer [((-12345 : Int), (678 : Int))]).getD 1 0)
      = 678 :=
  ((stereo_sample_packing [(-12345, 678)] (by decide)) |>.2.2 0 (by decide))

end Gambatte
